import Mathlib

/-!
Shallow embedding of the `yrhr` map-visualization scripts
(`src/unnamed/part_000` and `src/viz/map.js`) and proofs about the
legend-building routine `buildLegendFromData` and the fetch pipeline.

Modelling conventions:
* JavaScript's in-place `Array.prototype.sort` is made explicit: the
  builder returns the mutated feature collection alongside its output.
* `String.prototype.localeCompare` is modelled as lexicographic string
  comparison returning -1/0/1, matching the spec's description
  "lexicographic string comparison (locale-aware)".
* `Array.prototype.sort` with a consistent comparator is, per ES2019,
  a stable sort; any stable sort realizes it, and we use insertion sort,
  which is stable.
* A JavaScript `Map` is an insertion-ordered association list where
  `set` on an existing key overwrites the value in place.
* The asynchronous fetch chain is embedded as a function on an `Except`
  value: fallible fetch-and-parse yields `Except.error` and the chain has
  no rejection handler.
-/

/-- The `properties` object every point feature carries: string fields
`label` and `color`. -/
structure FeatureProperties where
  label : String
  color : String
deriving DecidableEq, Repr

/-- A GeoJSON point feature: geometry coordinates plus properties. -/
structure Feature where
  coordinates : ℚ × ℚ
  properties : FeatureProperties
deriving DecidableEq, Repr

/-- A GeoJSON feature collection: an ordered sequence of features. -/
structure FeatureCollection where
  features : List Feature
deriving DecidableEq, Repr

/-- Lexicographic three-way comparison of character sequences. -/
def lexCompareChars : List Char → List Char → Int
  | [], [] => 0
  | [], _ :: _ => -1
  | _ :: _, [] => 1
  | a :: as, b :: bs =>
    if a < b then -1 else if b < a then 1 else lexCompareChars as bs

/-- Model of `a.localeCompare(b)`: lexicographic string comparison
returning a negative, zero, or positive number (the spec reads the
comparator as "lexicographic string comparison (locale-aware)"; the
locale tables are external, so plain lexicographic order stands in). -/
def jsLocaleCompare (a b : String) : Int :=
  lexCompareChars a.data b.data

/-- The order on labels induced by the comparator
`(a, b) => a.localeCompare(b)`: `a` may precede `b` iff the comparator is
non-positive. -/
def labelLe (x y : String) : Prop := jsLocaleCompare x y ≤ 0

instance : DecidableRel labelLe := fun x y =>
  inferInstanceAs (Decidable (jsLocaleCompare x y ≤ 0))

/-- The order on features induced by the sort comparator
`(a, b) => a.properties.label.localeCompare(b.properties.label)`. -/
def featureLe (a b : Feature) : Prop :=
  labelLe a.properties.label b.properties.label

instance : DecidableRel featureLe := fun a b =>
  inferInstanceAs (Decidable (labelLe a.properties.label b.properties.label))

/-- Line 38-39 of part_000:
`data.features.sort((a, b) => a.properties.label.localeCompare(b.properties.label))`.
JS `sort` is stable; insertion sort realizes it. The sort happens in
place, so after the call `data.features` denotes this list. -/
def sortedFeatures (data : FeatureCollection) : List Feature :=
  List.insertionSort featureLe data.features

/-- `Map.prototype.set(k, v)` on a JS `Map` held as an insertion-ordered
association list: an existing key keeps its position and gets the new
value; a new key is appended. -/
def jsMapSet (m : List (String × String)) (k v : String) :
    List (String × String) :=
  if m.any (fun p => p.1 == k) then
    m.map (fun p => if p.1 == k then (k, v) else p)
  else m ++ [(k, v)]

/-- The `forEach` callback of lines 41-46 of part_000:
`f => mapLegend.set(f.properties.label, f.properties.color)`. -/
def legendStep (m : List (String × String)) (f : Feature) :
    List (String × String) :=
  jsMapSet m f.properties.label f.properties.color

/-- Lines 36-46 of part_000: `const mapLegend = new Map()` followed by
`sortedFeatures.forEach(f => mapLegend.set(f.properties.label, f.properties.color))`. -/
def mapLegendOf (data : FeatureCollection) : List (String × String) :=
  (sortedFeatures data).foldl legendStep []

/-- `Array.from` applied to a non-iterable array-like value: reads
`length` and the numeric indices `0 .. length - 1`. -/
def jsArrayFromArrayLike (len : Nat) (get : Nat → α) : List α :=
  (List.range len).map get

/-- The `length` property (declared parameter count) of the function
object `Map.prototype.entries`, which line 48 of part_000 passes to
`Array.from` without invoking it. -/
def mapEntriesFunctionLength : Nat := 0

/-- Line 48 of part_000: `const sortedLegend = Array.from(mapLegend.entries)`.
The method is passed uninvoked; a function object is not iterable, so
`Array.from` falls back to array-like conversion using the function's
`length` property, which is `0`. -/
def sortedLegend (_mapLegend : List (String × String)) :
    List (String × String) :=
  jsArrayFromArrayLike mapEntriesFunctionLength (fun _ => ("", ""))

/-- Line 55 of part_000: `div.innerHTML = "<strong>Legend</strong><br>"`. -/
def legendHeadingHtml : String := "<strong>Legend</strong><br>"

/-- Lines 58-62 of part_000: the markup appended for one legend row
(whitespace normalized). -/
def legendItemHtml (color name : String) : String :=
  "<div class=\"legend-item\"><span class=\"legend-color\" style=\"background:"
    ++ color ++ "\"></span>" ++ name ++ "</div>"

/-- Lines 53-66 of part_000: the `legend.onAdd` callback builds the
heading and then appends one row per `mapLegend` entry, iterating the
map with `forEach((color, name) => ...)` in insertion order. -/
def legendOnAdd (mapLegend : List (String × String)) : String :=
  mapLegend.foldl (fun div p => div ++ legendItemHtml p.2 p.1)
    legendHeadingHtml

/-- The sequence of labels the legend overlay renders, in row-emission
order: the iteration order of `mapLegend`. -/
def legendLabels (data : FeatureCollection) : List String :=
  (mapLegendOf data).map Prod.fst

/-- Lines 35-69 of part_000, the whole of `buildLegendFromData`: sorts
`data.features` in place, fills `mapLegend`, computes the dead
`sortedLegend` value, and attaches the legend control whose `onAdd`
renders the rows. Returns the mutated collection and the attached
legend markup. -/
def buildLegendFromData (data : FeatureCollection) :
    FeatureCollection × String :=
  let mapLegend := mapLegendOf data
  let _sortedLegend := sortedLegend mapLegend
  (⟨sortedFeatures data⟩, legendOnAdd mapLegend)

/-- `buildLegendFromData` with the dead `sortedLegend` computation of
line 48 removed: the comparison target for the dead-code claim. -/
def buildLegendFromDataNoDead (data : FeatureCollection) :
    FeatureCollection × String :=
  (⟨sortedFeatures data⟩, legendOnAdd (mapLegendOf data))

/-! ### The page model: viewport, fetch pipeline -/

/-- A geographic bounding box of rendered markers. -/
structure BoundingBox where
  minLat : ℚ
  minLng : ℚ
  maxLat : ℚ
  maxLng : ℚ
deriving DecidableEq, Repr

/-- The map viewport: either still the view set by
`L.map("map").setView([-37.81, 144.96], 13)` or fitted to bounds by
`map.fitBounds`. -/
inductive ViewportState where
  | startView (center : ℚ × ℚ) (zoom : ℕ)
  | fitted (bounds : BoundingBox) (padding : ℕ × ℕ)
deriving DecidableEq, Repr

/-- Line 1 of both scripts: center `[-37.81, 144.96]`. -/
def defaultCenter : ℚ × ℚ := (-37.81, 144.96)

/-- Line 1 of both scripts: zoom `13`. -/
def defaultZoom : ℕ := 13

def initialViewport : ViewportState :=
  ViewportState.startView defaultCenter defaultZoom

/-- Modelled from the spec: the external layer's `getBounds` gives the
bounding box of all rendered point markers; an empty collection has no
bounds to fit. -/
def getBounds (fs : List Feature) : Option BoundingBox :=
  match fs with
  | [] => none
  | f :: rest =>
    some (rest.foldl
      (fun b g =>
        ⟨min b.minLat g.coordinates.1, min b.minLng g.coordinates.2,
          max b.maxLat g.coordinates.1, max b.maxLng g.coordinates.2⟩)
      ⟨f.coordinates.1, f.coordinates.2, f.coordinates.1, f.coordinates.2⟩)

/-- Modelled from the spec: `map.fitBounds` on the external map-rendering
surface fits the viewport to the given bounds with the given padding;
with no bounds to fit the viewport is unchanged. -/
def fitBounds (b : Option BoundingBox) (padding : ℕ × ℕ)
    (v : ViewportState) : ViewportState :=
  match b with
  | none => v
  | some bb => ViewportState.fitted bb padding

/-- Observable page state: the viewport and the legend overlay markup,
if one has been attached. -/
structure PageState where
  viewport : ViewportState
  legendHtml : Option String
deriving DecidableEq, Repr

/-- Page state before the fetch resolves: default view, no legend. -/
def initialPageState : PageState := ⟨initialViewport, none⟩

/-- Lines 9-33 of part_000: the success continuation of the fetch chain.
Renders the layer, calls `map.fitBounds(layer.getBounds(), { padding: [20, 20] })`,
then `buildLegendFromData(data)`, which attaches the legend control. -/
def fetchHandlerMain (data : FeatureCollection) (s : PageState) :
    PageState :=
  let v := fitBounds (getBounds data.features) (20, 20) s.viewport
  let built := buildLegendFromData data
  { viewport := v, legendHtml := some built.2 }

/-- Lines 8-30 of viz/map.js: same rendering and bounds fit, no legend. -/
def fetchHandlerViz (data : FeatureCollection) (s : PageState) :
    PageState :=
  { s with viewport := fitBounds (getBounds data.features) (20, 20) s.viewport }

/-- The whole `fetch("points.geojson").then(r => r.json()).then(data => ...)`
chain of part_000. Fetch-and-parse is fallible; the chain has no
rejection handler, so an error skips the continuation, leaves the page
state untouched, and surfaces as an unhandled rejection (second
component). -/
def runScriptMain (fetchResult : Except String FeatureCollection) :
    PageState × Option String :=
  match fetchResult with
  | Except.error e => (initialPageState, some e)
  | Except.ok data => (fetchHandlerMain data initialPageState, none)

/-- The fetch chain of viz/map.js, likewise without a rejection handler. -/
def runScriptViz (fetchResult : Except String FeatureCollection) :
    PageState × Option String :=
  match fetchResult with
  | Except.error e => (initialPageState, some e)
  | Except.ok data => (fetchHandlerViz data initialPageState, none)

/-! ### Concrete inputs used by the end-to-end scenarios -/

def featX1 : Feature := ⟨(0, 0), ⟨"X", "#111"⟩⟩
def featX2 : Feature := ⟨(0, 0), ⟨"X", "#222"⟩⟩
def featA : Feature := ⟨(0, 0), ⟨"A", "#f00"⟩⟩
def featB : Feature := ⟨(0, 0), ⟨"B", "#0f0"⟩⟩

/-- Scenario 2 input: `[{label:"B"},{label:"A"}]`. -/
def dataBA : FeatureCollection := ⟨[featB, featA]⟩

/-- Scenario 1 input: `[{label:"A"},{label:"B"}]`. -/
def dataAB : FeatureCollection := ⟨[featA, featB]⟩

/-! ### Properties of the comparator order -/

theorem lexCompareChars_self : ∀ l : List Char, lexCompareChars l l = 0
  | [] => rfl
  | a :: as => by
    simpa [lexCompareChars, lt_irrefl a] using lexCompareChars_self as

theorem lexCompareChars_swap :
    ∀ a b : List Char, lexCompareChars b a = -lexCompareChars a b
  | [], [] => rfl
  | [], _ :: _ => rfl
  | _ :: _, [] => rfl
  | a :: as, b :: bs => by
    by_cases hab : a < b
    · simp [lexCompareChars, hab, lt_asymm hab]
    · by_cases hba : b < a
      · simp [lexCompareChars, hab, hba]
      · simpa [lexCompareChars, hab, hba] using lexCompareChars_swap as bs

theorem lexCompareChars_trans :
    ∀ a b c : List Char, lexCompareChars a b ≤ 0 → lexCompareChars b c ≤ 0 →
      lexCompareChars a c ≤ 0
  | [], [], _, _, hbc => hbc
  | [], _ :: _, [], _, _ => by decide
  | [], _ :: _, _ :: _, _, _ => by simp [lexCompareChars]
  | _ :: _, [], _, hab, _ => absurd hab (by simp [lexCompareChars])
  | _ :: _, _ :: _, [], _, hbc => absurd hbc (by simp [lexCompareChars])
  | x :: as, y :: bs, z :: cs, hab, hbc => by
    by_cases hyz : y < z
    · by_cases hxy : x < y
      · simp [lexCompareChars, lt_trans hxy hyz]
      · by_cases hyx : y < x
        · exact absurd hab (by simp [lexCompareChars, hxy, hyx])
        · have hxy' : x = y := le_antisymm (le_of_not_lt hyx) (le_of_not_lt hxy)
          subst hxy'
          simp [lexCompareChars, hyz]
    · by_cases hzy : z < y
      · exact absurd hbc (by simp [lexCompareChars, hyz, hzy])
      · have hyz' : y = z := le_antisymm (le_of_not_lt hzy) (le_of_not_lt hyz)
        subst hyz'
        by_cases hxy : x < y
        · simp [lexCompareChars, hxy]
        · by_cases hyx : y < x
          · exact absurd hab (by simp [lexCompareChars, hxy, hyx])
          · have h1 : lexCompareChars as bs ≤ 0 := by
              simpa [lexCompareChars, hxy, hyx] using hab
            have h2 : lexCompareChars bs cs ≤ 0 := by
              simpa [lexCompareChars, hxy, hyx] using hbc
            simpa [lexCompareChars, hxy, hyx] using
              lexCompareChars_trans as bs cs h1 h2

theorem labelLe_refl (x : String) : labelLe x x := by
  simp [labelLe, jsLocaleCompare, lexCompareChars_self]

theorem labelLe_total (x y : String) : labelLe x y ∨ labelLe y x := by
  unfold labelLe jsLocaleCompare
  rw [lexCompareChars_swap]
  omega

theorem featureLe_isTotal : IsTotal Feature featureLe :=
  ⟨fun a b => labelLe_total a.properties.label b.properties.label⟩

theorem featureLe_isTrans : IsTrans Feature featureLe :=
  ⟨fun _ _ _ hab hbc => lexCompareChars_trans _ _ _ hab hbc⟩

theorem sortedFeatures_pairwise (data : FeatureCollection) :
    List.Pairwise featureLe (sortedFeatures data) := by
  haveI := featureLe_isTotal
  haveI := featureLe_isTrans
  exact List.sorted_insertionSort featureLe data.features

theorem sortedFeatures_perm (data : FeatureCollection) :
    (sortedFeatures data).Perm data.features :=
  List.perm_insertionSort featureLe data.features

/-! ### Properties of the legend map construction -/

theorem keys_jsMapSet (m : List (String × String)) (k v : String) :
    (jsMapSet m k v).map Prod.fst =
      if m.any (fun p => p.1 == k) then m.map Prod.fst
      else m.map Prod.fst ++ [k] := by
  unfold jsMapSet
  split
  · rw [List.map_map]
    refine List.map_congr_left fun p _ => ?_
    by_cases h : p.1 == k
    · simp only [Function.comp_apply, h, if_true]
      exact (eq_of_beq h).symm
    · have h' : p.1 ≠ k := by simpa using h
      simp [Function.comp_apply, h']
  · simp

theorem nodupKeys_jsMapSet (m : List (String × String)) (k v : String)
    (h : (m.map Prod.fst).Nodup) :
    ((jsMapSet m k v).map Prod.fst).Nodup := by
  rw [keys_jsMapSet]
  split
  · exact h
  · next hany =>
    rw [List.nodup_append]
    refine ⟨h, List.nodup_singleton _, ?_⟩
    intro x hx hk
    rw [List.mem_singleton] at hk
    subst hk
    rcases List.mem_map.mp hx with ⟨p, hp, hpk⟩
    exact hany (List.any_eq_true.mpr ⟨p, hp, beq_iff_eq.mpr hpk⟩)

theorem nodupKeys_legendFold :
    ∀ (fs : List Feature) (m : List (String × String)),
      (m.map Prod.fst).Nodup → ((fs.foldl legendStep m).map Prod.fst).Nodup
  | [], _, h => h
  | f :: fs, m, h =>
    nodupKeys_legendFold fs _
      (nodupKeys_jsMapSet m f.properties.label f.properties.color h)

theorem sortedKeys_legendFold :
    ∀ (fs : List Feature) (m : List (String × String)),
      List.Pairwise labelLe
        (m.map Prod.fst ++ fs.map (fun f => f.properties.label)) →
      List.Pairwise labelLe ((fs.foldl legendStep m).map Prod.fst)
  | [], m, h => by simpa using h
  | f :: fs, m, h => by
    rw [List.foldl_cons]
    refine sortedKeys_legendFold fs (legendStep m f) ?_
    have hkeys := keys_jsMapSet m f.properties.label f.properties.color
    unfold legendStep
    rw [hkeys]
    split
    · refine h.sublist ?_
      exact (List.sublist_cons_self _ _).append_left _
    · rw [List.append_assoc, List.singleton_append]
      simpa using h

theorem legendFold_of_nodup :
    ∀ (fs : List Feature) (m : List (String × String)),
      (∀ f ∈ fs, m.any (fun p => p.1 == f.properties.label) = false) →
      (fs.map (fun f => f.properties.label)).Nodup →
      fs.foldl legendStep m =
        m ++ fs.map (fun f => (f.properties.label, f.properties.color))
  | [], m, _, _ => by simp
  | f :: fs, m, hfresh, hnodup => by
    have hhead : f.properties.label ∉ fs.map (fun g => g.properties.label) :=
      (List.nodup_cons.mp (by simpa using hnodup)).1
    have hnodup' : (fs.map (fun g => g.properties.label)).Nodup :=
      (List.nodup_cons.mp (by simpa using hnodup)).2
    have hstep : legendStep m f =
        m ++ [(f.properties.label, f.properties.color)] := by
      unfold legendStep jsMapSet
      rw [hfresh f (List.mem_cons_self f fs)]
      simp
    rw [List.foldl_cons, hstep,
      legendFold_of_nodup fs _ ?_ hnodup']
    · simp
    · intro g hg
      rw [List.any_append, hfresh g (List.mem_cons_of_mem f hg)]
      simp only [Bool.false_or, List.any_cons, List.any_nil, Bool.or_false]
      refine beq_eq_false_iff_ne.mpr ?_
      intro hEq
      exact hhead (hEq ▸ List.mem_map_of_mem _ hg)

/-! ### The claims -/

/-- C1: for a feature collection of two features that share a label loaded
with different colors, the legend mapping has exactly one entry for that
label, and its color is the color of the feature that sorts later (the
sort is stable, so with equal labels the second stays second): last write
wins. -/
theorem legend_last_write_wins (p q : Feature)
    (hlab : p.properties.label = q.properties.label)
    (_hcol : p.properties.color ≠ q.properties.color) :
    mapLegendOf ⟨[p, q]⟩ = [(p.properties.label, q.properties.color)] := by
  have hle : featureLe p q := by
    unfold featureLe
    rw [hlab]
    exact labelLe_refl _
  have hsort : sortedFeatures ⟨[p, q]⟩ = [p, q] := by
    simp [sortedFeatures, List.insertionSort, List.orderedInsert, hle]
  rw [mapLegendOf, hsort]
  simp [legendStep, jsMapSet, hlab]

/-- Witness for C1 at scenario 3's input
`[{label:"X",color:"#111"},{label:"X",color:"#222"}]`. -/
theorem legend_last_write_wins_witness :
    featX1.properties.label = featX2.properties.label ∧
      featX1.properties.color ≠ featX2.properties.color ∧
      mapLegendOf ⟨[featX1, featX2]⟩ = [("X", "#222")] :=
  ⟨rfl, by decide, legend_last_write_wins featX1 featX2 rfl (by decide)⟩

/-- C2: for every feature collection the legend rows are emitted in
lexicographically sorted label order, and on scenario 2's input
`[{label:"B"},{label:"A"}]` the "A" row precedes the "B" row. -/
theorem legend_render_order_sorted :
    (∀ data : FeatureCollection,
      List.Pairwise (fun x y => jsLocaleCompare x y ≤ 0)
        (legendLabels data)) ∧
      legendLabels dataBA = ["A", "B"] := by
  constructor
  · intro data
    refine sortedKeys_legendFold (sortedFeatures data) [] ?_
    simp only [List.map_nil, List.nil_append]
    exact (sortedFeatures_pairwise data).map _ (fun _ _ h => h)
  · decide

/-- C3 counterexample: `buildLegendFromData` does not leave
`data.features` unchanged: on the input `[{label:"B"},{label:"A"}]` the
features come back in the order `[A, B]`, not the original `[B, A]`. -/
theorem legend_build_mutates_input :
    ¬ ((buildLegendFromData dataBA).1.features = dataBA.features) := by
  decide

/-- C3 amended: `buildLegendFromData` sorts `data.features` in place
(`Array.prototype.sort` mutates, it does not copy): after the call,
`data.features` is a label-sorted permutation of the original sequence,
and it equals the original sequence exactly when that sequence was
already label-sorted. -/
theorem legend_build_sorts_in_place (data : FeatureCollection) :
    (buildLegendFromData data).1.features.Perm data.features ∧
      List.Pairwise featureLe (buildLegendFromData data).1.features ∧
      ((buildLegendFromData data).1.features = data.features ↔
        List.Pairwise featureLe data.features) := by
  refine ⟨sortedFeatures_perm data, sortedFeatures_pairwise data, ?_, ?_⟩
  · intro h
    have hs : List.Pairwise featureLe (buildLegendFromData data).1.features :=
      sortedFeatures_pairwise data
    rwa [h] at hs
  · intro h
    exact List.Sorted.insertionSort_eq h

/-- C4: on the empty feature collection the fetch handler still attaches
the legend overlay, which shows the static heading and zero rows, and
the viewport stays at the default center (-37.81, 144.96) and zoom 13,
there being no bounds to fit. -/
theorem empty_collection_heading_only :
    mapLegendOf ⟨[]⟩ = [] ∧
      (fetchHandlerMain ⟨[]⟩ initialPageState).legendHtml =
        some legendHeadingHtml ∧
      (fetchHandlerMain ⟨[]⟩ initialPageState).viewport =
        ViewportState.startView defaultCenter defaultZoom :=
  ⟨rfl, rfl, rfl⟩

/-- C5: when all labels are pairwise distinct the legend mapping has
exactly N entries and maps each feature's label to that feature's
color. -/
theorem legend_distinct_labels_complete (data : FeatureCollection)
    (h : (data.features.map (fun f => f.properties.label)).Nodup) :
    (mapLegendOf data).length = data.features.length ∧
      ∀ f ∈ data.features,
        (f.properties.label, f.properties.color) ∈ mapLegendOf data := by
  have hperm :
      ((sortedFeatures data).map (fun f => f.properties.label)).Perm
        (data.features.map (fun f => f.properties.label)) :=
    (sortedFeatures_perm data).map _
  have hnodup :
      ((sortedFeatures data).map (fun f => f.properties.label)).Nodup :=
    hperm.symm.nodup h
  have hfold := legendFold_of_nodup (sortedFeatures data) []
    (fun _ _ => rfl) hnodup
  have hmap : mapLegendOf data =
      (sortedFeatures data).map
        (fun f => (f.properties.label, f.properties.color)) := by
    rw [mapLegendOf, hfold, List.nil_append]
  constructor
  · rw [hmap, List.length_map]
    exact (sortedFeatures_perm data).length_eq
  · intro f hf
    rw [hmap]
    exact List.mem_map_of_mem _ ((sortedFeatures_perm data).mem_iff.mpr hf)

/-- Witness for C5 at scenario 1's input
`[{label:"A",color:"#f00"},{label:"B",color:"#0f0"}]`. -/
theorem legend_distinct_labels_complete_witness :
    (dataAB.features.map (fun f => f.properties.label)).Nodup ∧
      (mapLegendOf dataAB).length = dataAB.features.length ∧
      ∀ f ∈ dataAB.features,
        (f.properties.label, f.properties.color) ∈ mapLegendOf dataAB :=
  ⟨by decide, legend_distinct_labels_complete dataAB (by decide)⟩

/-- C6: the sequence of labels fed into the legend mapping construction
(the fold over sortedFeatures, in order) is non-decreasing under the
localeCompare comparator. -/
theorem labels_fed_nondecreasing (data : FeatureCollection) :
    List.Pairwise (fun x y => jsLocaleCompare x y ≤ 0)
      ((sortedFeatures data).map (fun f => f.properties.label)) :=
  (sortedFeatures_pairwise data).map _ (fun _ _ h => h)

/-- C7: legend building is deterministic and accumulation-free: a second
invocation, on the collection exactly as the first invocation left it,
produces the same legend mapping and the same rendered markup. -/
theorem legend_build_idempotent (data : FeatureCollection) :
    mapLegendOf (buildLegendFromData data).1 = mapLegendOf data ∧
      (buildLegendFromData (buildLegendFromData data).1).2 =
        (buildLegendFromData data).2 := by
  have hsorted : sortedFeatures (buildLegendFromData data).1 =
      sortedFeatures data :=
    List.Sorted.insertionSort_eq (sortedFeatures_pairwise data)
  have hmap : mapLegendOf (buildLegendFromData data).1 = mapLegendOf data := by
    rw [mapLegendOf, mapLegendOf, hsorted]
  exact ⟨hmap, by
    rw [show (buildLegendFromData (buildLegendFromData data).1).2 =
      legendOnAdd (mapLegendOf (buildLegendFromData data).1) from rfl, hmap]
    rfl⟩

/-- C8: a failed fetch or parse is not handled by either script: the
rejection surfaces unhandled, and the page keeps its initial state —
default viewport, no legend overlay attached. -/
theorem fetch_failure_unhandled (e : String) :
    runScriptMain (Except.error e) = (initialPageState, some e) ∧
      (runScriptMain (Except.error e)).1.legendHtml = none ∧
      runScriptViz (Except.error e) = (initialPageState, some e) :=
  ⟨rfl, rfl, rfl⟩

/-- C9: `sortedLegend` is dead code: `Array.from` is applied to the
uninvoked `entries` method, so the value is the empty array for every
input, and the program's built output is identical with the computation
removed. -/
theorem sortedLegend_is_dead_code :
    (∀ m, sortedLegend m = []) ∧
      ∀ data, buildLegendFromData data = buildLegendFromDataNoDead data :=
  ⟨fun _ => rfl, fun _ => rfl⟩

/-- C10: `buildLegendFromData` preserves the multiset of features — none
added, removed, or modified — while reordering `data.features` in place
into label-sorted order. -/
theorem legend_build_preserves_multiset (data : FeatureCollection) :
    (buildLegendFromData data).1.features.Perm data.features ∧
      List.Pairwise featureLe (buildLegendFromData data).1.features :=
  ⟨sortedFeatures_perm data, sortedFeatures_pairwise data⟩
